import Mathlib

/-!
A shallow embedding of the data-shaping functions of `src/app.py`
(a Dash dashboard for a competency-assessment framework), together with
proofs about them.

Modelling conventions:
* A pandas `DataFrame` is a list of typed row records, one structure per
  table (`FrameworkRow`, `DefinitionRow`, `SpiderRow`, `PositionSubRow`,
  `OrgRow`).  A missing cell (`NaN`) in a string column is `Option.none`.
* `df.groupby(col)` (pandas default `sort=True`) is modelled by
  `pandasGroupby`: the distinct key values in sorted order, each paired
  with the rows carrying that key in their original order.
* Python string operations are modelled on the character lists of Lean
  strings: `pyLower` for `str.lower()` (ASCII range, which covers the
  data domain), `pyCapitalize` for `str.capitalize()`, `pyContains` for
  the `in` substring test, `strLe` for the code-point comparison pandas
  uses when sorting string keys.
* `create_organization_chart` mutates the DataFrame passed to it
  (`data['manager'] = ...fillna('')`, `data['label'] = ...`); it is
  modelled as a function returning the chart together with the post-call
  state of the table.
* The Plotly figures are modelled by the data that the code feeds them
  (`OrgChart`, `SpiderChart`); the Dash `html.Div` display blocks by
  `TreeNode` / `ListNode` values.
* The SendGrid call in `submit_form` is modelled by an explicit
  `Except`-valued outcome argument: `Except.ok ()` when `sg.send`
  returns, `Except.error e` when anything inside the `try` block raises.
-/

/-! ## Python string primitives -/

/-- `str.lower()` on one character: ASCII `A`–`Z` maps to `a`–`z`. -/
def pyCharLower (c : Char) : Char :=
  if 65 ≤ c.toNat ∧ c.toNat ≤ 90 then Char.ofNat (c.toNat + 32) else c

/-- `str.lower()`. -/
def pyLower (s : String) : String := String.mk (s.data.map pyCharLower)

/-- `str.upper()` on one character: ASCII `a`–`z` maps to `A`–`Z`. -/
def pyCharUpper (c : Char) : Char :=
  if 97 ≤ c.toNat ∧ c.toNat ≤ 122 then Char.ofNat (c.toNat - 32) else c

/-- `str.capitalize()`: first character uppercased, the rest lowercased. -/
def pyCapitalize (s : String) : String :=
  match s.data with
  | [] => ""
  | c :: cs => String.mk (pyCharUpper c :: cs.map pyCharLower)

/-- Does the first list occur as a leading segment of the second? -/
def startsWithChars : List Char → List Char → Bool
  | [], _ => true
  | _ :: _, [] => false
  | a :: as, b :: bs => a == b && startsWithChars as bs

/-- Substring occurrence on character lists. -/
def containsChars (needle : List Char) : List Char → Bool
  | [] => startsWithChars needle []
  | b :: bs => startsWithChars needle (b :: bs) || containsChars needle bs

/-- Python's `needle in hay` substring test (case-sensitive). -/
def pyContains (needle hay : String) : Bool := containsChars needle.data hay.data

/-- Code-point comparison of characters, as Python's `<` on strings uses. -/
def strLeChars : List Char → List Char → Bool
  | [], _ => true
  | _ :: _, [] => false
  | a :: as, b :: bs =>
    if a.toNat < b.toNat then true
    else if b.toNat < a.toNat then false
    else strLeChars as bs

/-- Lexicographic `≤` on strings by code point (Python / pandas ordering). -/
def strLe (a b : String) : Bool := strLeChars a.data b.data

/-! ## pandas groupby -/

/-- Insert a string into a list just before the first element it is `strLe`-below. -/
def insertSorted (a : String) : List String → List String
  | [] => [a]
  | b :: bs => if strLe a b then a :: b :: bs else b :: insertSorted a bs

/-- Sort a list of strings by code point, as pandas sorts group keys. -/
def sortStrings : List String → List String
  | [] => []
  | a :: as => insertSorted a (sortStrings as)

/-- Distinct elements of a list in first-seen order, skipping those in `seen`. -/
def distinctFirstSeenFrom (seen : List String) : List String → List String
  | [] => []
  | x :: xs =>
    if x ∈ seen then distinctFirstSeenFrom seen xs
    else x :: distinctFirstSeenFrom (x :: seen) xs

/-- Distinct elements of a list, in order of first occurrence. -/
def distinctFirstSeen (l : List String) : List String := distinctFirstSeenFrom [] l

/-- `df.groupby(key)` with pandas' default `sort=True`: the distinct key
values in sorted order, each with the rows carrying it, in row order. -/
def pandasGroupby {α : Type} (key : α → String) (rows : List α) :
    List (String × List α) :=
  (sortStrings (distinctFirstSeen (rows.map key))).map
    (fun k => (k, rows.filter (fun r => key r == k)))

/-! ## Data model: one record type per loaded table -/

/-- One row of `all_competency_framework.csv` (columns lowercased, stripped). -/
structure FrameworkRow where
  framework : String
  competency : String
  type : String
  subitem : String
deriving DecidableEq, Repr

/-- One row of `competency_definitions.csv`. -/
structure DefinitionRow where
  competency : String
  definition : String
deriving DecidableEq, Repr

/-- One row of `spider_chart_data.csv` (`proficiency level` as a number). -/
structure SpiderRow where
  position : String
  competency : String
  proficiency : Int
deriving DecidableEq, Repr

/-- One row of `position_sub_items.csv`. -/
structure PositionSubRow where
  position : String
  competency : String
  type : String
  subitem : String
  proficiency : Int
deriving DecidableEq, Repr

/-- One row of `organization_chart_data.csv`.  `manager = none` models a
`NaN` cell; `label` models the column added by `create_organization_chart`
(absent, `none`, in the freshly loaded table). -/
structure OrgRow where
  name : String
  title : String
  manager : Option String
  label : Option String
deriving DecidableEq, Repr

/-! ## Builders -/

/-- The data handed to `go.Sunburst` by `create_organization_chart`. -/
structure OrgChart where
  labels : List String
  parents : List String
  colors : List String
deriving DecidableEq, Repr

/-- `data['manager'] = data['manager'].fillna('')` applied to one row. -/
def orgFillManager (r : OrgRow) : OrgRow :=
  { r with manager := some (r.manager.getD "") }

/-- `data['label'] = data['name'] + " (" + data['title'] + ")"` on one row. -/
def orgAddLabel (r : OrgRow) : OrgRow :=
  { r with label := some (r.name ++ " (" ++ r.title ++ ")") }

/-- The per-row parent lookup of `create_organization_chart`:
`data.loc[data['name'] == x, 'label'].values[0] if x in data['name'].values
else ''` where `x` is the row's (filled) manager value. -/
def orgParent (data : List OrgRow) (r : OrgRow) : String :=
  match data.find? (fun q => q.name == r.manager.getD "") with
  | some q => q.label.getD ""
  | none => ""

/-- `create_organization_chart(data)` from `src/app.py`.  The Python
function assigns to two columns of the DataFrame it is given (filling
`NaN` managers with `''` and adding the `label` column), so the model
returns the chart together with the table as it stands after the call. -/
def create_organization_chart (data : List OrgRow) : OrgChart × List OrgRow :=
  let data2 := (data.map orgFillManager).map orgAddLabel
  ({ labels := data2.map (fun r => r.label.getD "")
     parents := data2.map (orgParent data2)
     colors := data2.map
       (fun r => if pyContains "Manager" r.title then "green" else "blue") },
   data2)

/-- A display block emitted by `create_taxonomy_tree`: the bold competency
heading, the italic definition line, or one colored sub-item line. -/
inductive TreeNode where
  | header (text : String)
  | defLine (text : String)
  | item (text : String) (color : String)
deriving DecidableEq, Repr

/-- The definition lookup inside `create_taxonomy_tree`: the `definition`
cell of the first `definitions_data` row whose `competency` equals the
group key exactly, or the placeholder when no row matches. -/
def lookupDefinition (defs : List DefinitionRow) (competency : String) : String :=
  match defs.find? (fun d => d.competency == competency) with
  | some d => d.definition
  | none => "No definition available."

/-- The color of one taxonomy sub-item line:
`"red" if row['type'].lower() == "technical ability" else "green"`. -/
def taxonomyItemColor (type : String) : String :=
  if pyLower type == "technical ability" then "red" else "green"

/-- The block of display lines `create_taxonomy_tree` appends for one
competency group. -/
def taxonomyBlock (defs : List DefinitionRow) (g : String × List FrameworkRow) :
    List TreeNode :=
  TreeNode.header g.1 ::
  TreeNode.defLine ("Definition: " ++ lookupDefinition defs g.1) ::
  g.2.map (fun r =>
    TreeNode.item ("◉ " ++ pyCapitalize r.type ++ ": " ++ r.subitem)
      (taxonomyItemColor r.type))

/-- `create_taxonomy_tree(df)` from `src/app.py`: one block per
`df.groupby('competency')` group. -/
def create_taxonomy_tree (defs : List DefinitionRow) (df : List FrameworkRow) :
    List TreeNode :=
  (pandasGroupby (fun r => r.competency) df).flatMap (taxonomyBlock defs)

/-- The `update_framework` callback: filter the framework table to the
selected framework and build the taxonomy tree. -/
def update_framework (framework_data : List FrameworkRow)
    (defs : List DefinitionRow) (selected : String) : List TreeNode :=
  create_taxonomy_tree defs
    (framework_data.filter (fun r => r.framework == selected))

/-- The competency heading carried by a display block, if it is one. -/
def headerName : TreeNode → Option String
  | TreeNode.header c => some c
  | TreeNode.defLine _ => none
  | TreeNode.item _ _ => none

/-- The competency headings of a taxonomy tree, in display order. -/
def taxonomyHeaders (t : List TreeNode) : List String :=
  t.filterMap headerName

/-- The figure `create_spider_chart` returns: either the empty
`go.Figure()` or a `Scatterpolar` with radii `r` and angles `theta`. -/
inductive SpiderChart where
  | empty
  | chart (r : List Int) (theta : List String)
deriving DecidableEq, Repr

/-- `create_spider_chart(data, position)` from `src/app.py`. -/
def create_spider_chart (data : List SpiderRow) (position : String) :
    SpiderChart :=
  let filtered := data.filter (fun r => r.position == position)
  let categories := filtered.map (fun r => r.competency)
  let values := filtered.map (fun r => r.proficiency)
  if categories.isEmpty || values.isEmpty then SpiderChart.empty
  else SpiderChart.chart (values ++ values.take 1) (categories ++ categories.take 1)

/-- A display block emitted by `create_competency_list`: the competency
heading or one colored sub-item line. -/
inductive ListNode where
  | header (text : String)
  | item (text : String) (color : String)
deriving DecidableEq, Repr

/-- The color of one competency-list sub-item line:
`"red" if row['type'].lower() == "technical ability" else "green"`. -/
def competencyItemColor (type : String) : String :=
  if pyLower type == "technical ability" then "red" else "green"

/-- `create_competency_list(data, position)` from `src/app.py`. -/
def create_competency_list (data : List PositionSubRow) (position : String) :
    List ListNode :=
  let filtered := data.filter (fun r => r.position == position)
  (pandasGroupby (fun r => r.competency) filtered).flatMap (fun g =>
    ListNode.header g.1 ::
    g.2.map (fun r =>
      ListNode.item
        ("◉ " ++ r.subitem ++ " (Proficiency Level: " ++ toString r.proficiency ++ ")")
        (competencyItemColor r.type)))

/-! ## submit_form -/

/-- The success message returned by `submit_form`. -/
def submitSuccessMessage : String :=
  "Thank you! Your request has been submitted successfully. You will receive an email shortly."

/-- The generic failure message returned by `submit_form`. -/
def submitFailureMessage : String :=
  "An error occurred while processing your request. Please try again later."

/-- The `submit_form` callback.  `n_clicks` is `none` before any click
(Dash passes `None`); `sendOutcome` is the outcome of the `try` block's
SendGrid call: `Except.ok ()` when it returns, `Except.error e` when it
raises an exception with message `e` (caught by the `except` clause). -/
def submit_form (n_clicks : Option Nat) (sendOutcome : Except String Unit) :
    String :=
  if n_clicks.getD 0 ≠ 0 then
    match sendOutcome with
    | Except.ok _ => submitSuccessMessage
    | Except.error _ => submitFailureMessage
  else "Submit"

/-! ## Helper lemmas -/

theorem mem_distinctFirstSeenFrom (a : String) (seen l : List String) :
    a ∈ distinctFirstSeenFrom seen l ↔ a ∈ l ∧ a ∉ seen := by
  induction l generalizing seen with
  | nil => simp [distinctFirstSeenFrom]
  | cons x xs ih =>
    by_cases hx : x ∈ seen
    · simp only [distinctFirstSeenFrom, if_pos hx, ih, List.mem_cons]
      constructor
      · rintro ⟨h, hs⟩
        exact ⟨Or.inr h, hs⟩
      · rintro ⟨rfl | h, hs⟩
        · exact absurd hx hs
        · exact ⟨h, hs⟩
    · simp only [distinctFirstSeenFrom, if_neg hx, List.mem_cons, ih]
      constructor
      · rintro (rfl | ⟨h, hs⟩)
        · exact ⟨Or.inl rfl, hx⟩
        · exact ⟨Or.inr h, fun hseen => hs (Or.inr hseen)⟩
      · rintro ⟨rfl | h, hs⟩
        · exact Or.inl rfl
        · by_cases hax : a = x
          · exact Or.inl hax
          · refine Or.inr ⟨h, fun hmem => ?_⟩
            rcases hmem with h1 | h2
            · exact hax h1
            · exact hs h2

theorem mem_distinctFirstSeen (a : String) (l : List String) :
    a ∈ distinctFirstSeen l ↔ a ∈ l := by
  simp [distinctFirstSeen, mem_distinctFirstSeenFrom]

theorem distinctFirstSeenFrom_eq_self (l : List String) :
    ∀ seen : List String, l.Nodup → (∀ x ∈ l, x ∉ seen) →
      distinctFirstSeenFrom seen l = l := by
  induction l with
  | nil =>
    intro seen _ _
    rfl
  | cons x xs ih =>
    intro seen hn hs
    have hx : x ∉ seen := hs x (List.mem_cons_self x xs)
    rw [distinctFirstSeenFrom, if_neg hx]
    congr 1
    refine ih (x :: seen) (List.nodup_cons.mp hn).2 (fun y hy hmem => ?_)
    rcases List.mem_cons.mp hmem with h1 | h2
    · exact (List.nodup_cons.mp hn).1 (h1 ▸ hy)
    · exact hs y (List.mem_cons_of_mem _ hy) h2

theorem distinctFirstSeen_of_nodup (l : List String) (h : l.Nodup) :
    distinctFirstSeen l = l :=
  distinctFirstSeenFrom_eq_self l [] h (fun x _ => List.not_mem_nil x)

theorem length_insertSorted (a : String) (l : List String) :
    (insertSorted a l).length = l.length + 1 := by
  induction l with
  | nil => rfl
  | cons b bs ih =>
    rw [insertSorted]
    split
    · rfl
    · simp [List.length_cons, ih]

theorem length_sortStrings (l : List String) :
    (sortStrings l).length = l.length := by
  induction l with
  | nil => rfl
  | cons a as ih =>
    rw [sortStrings, length_insertSorted, ih]
    rfl

theorem mem_insertSorted (a b : String) (l : List String) :
    b ∈ insertSorted a l ↔ b = a ∨ b ∈ l := by
  induction l with
  | nil => simp [insertSorted]
  | cons c cs ih =>
    rw [insertSorted]
    split
    · simp [List.mem_cons]
    · simp only [List.mem_cons, ih]
      tauto

theorem mem_sortStrings (a : String) (l : List String) :
    a ∈ sortStrings l ↔ a ∈ l := by
  induction l with
  | nil => simp [sortStrings]
  | cons b bs ih =>
    rw [sortStrings, mem_insertSorted]
    simp [ih]

theorem taxonomyHeaders_append (s t : List TreeNode) :
    taxonomyHeaders (s ++ t) = taxonomyHeaders s ++ taxonomyHeaders t := by
  simp [taxonomyHeaders, List.filterMap_append]

theorem filterMap_headerName_items {α : Type} (rows : List α) (f : α → TreeNode)
    (hf : ∀ a, headerName (f a) = none) :
    List.filterMap headerName (rows.map f) = [] := by
  induction rows with
  | nil => rfl
  | cons r rs ih => simp [List.filterMap_cons, hf, ih]

theorem taxonomyHeaders_block (defs : List DefinitionRow)
    (g : String × List FrameworkRow) :
    taxonomyHeaders (taxonomyBlock defs g) = [g.1] := by
  simp only [taxonomyBlock, taxonomyHeaders, List.filterMap_cons, headerName]
  rw [filterMap_headerName_items g.2
    (fun r => TreeNode.item ("◉ " ++ pyCapitalize r.type ++ ": " ++ r.subitem)
      (taxonomyItemColor r.type))
    (fun a => rfl)]

theorem taxonomyHeaders_flatMap (defs : List DefinitionRow)
    (gs : List (String × List FrameworkRow)) :
    taxonomyHeaders (gs.flatMap (taxonomyBlock defs)) = gs.map Prod.fst := by
  induction gs with
  | nil => rfl
  | cons g gs ih =>
    rw [List.flatMap_cons, taxonomyHeaders_append, taxonomyHeaders_block, ih]
    rfl

theorem map_fst_pairing {α : Type} (keys : List String) (f : String → α) :
    (keys.map (fun k => (k, f k))).map Prod.fst = keys := by
  induction keys with
  | nil => rfl
  | cons k ks ih => simp [ih]

theorem taxonomyHeaders_create (defs : List DefinitionRow)
    (df : List FrameworkRow) :
    taxonomyHeaders (create_taxonomy_tree defs df)
      = sortStrings (distinctFirstSeen (df.map (fun r => r.competency))) := by
  rw [create_taxonomy_tree, pandasGroupby, taxonomyHeaders_flatMap, map_fst_pairing]

theorem filtered_competencies_nodup (data : List SpiderRow) (pos : String)
    (h : (data.map (fun r => (r.position, r.competency))).Nodup) :
    ((data.filter (fun r => r.position == pos)).map
      (fun r => r.competency)).Nodup := by
  have hp : ((data.filter (fun r => r.position == pos)).map
      (fun r => (r.position, r.competency))).Nodup :=
    h.sublist (List.Sublist.map _ (List.filter_sublist data))
  have heq : (data.filter (fun r => r.position == pos)).map (fun r => r.competency)
      = ((data.filter (fun r => r.position == pos)).map
          (fun r => (r.position, r.competency))).map Prod.snd := by
    rw [List.map_map]
    rfl
  rw [heq]
  refine List.Nodup.map_on ?_ hp
  intro p hp1 q hq1 hpq
  obtain ⟨r, hr, rfl⟩ := List.mem_map.mp hp1
  obtain ⟨r', hr', rfl⟩ := List.mem_map.mp hq1
  have h1 : r.position = pos := by
    simpa using (List.mem_filter.mp hr).2
  have h2 : r'.position = pos := by
    simpa using (List.mem_filter.mp hr').2
  simp_all

theorem getLast?_cons_append_last {α : Type} (l : List α) :
    ∀ x y : α, (x :: (l ++ [y])).getLast? = some y := by
  induction l with
  | nil =>
    intro x y
    rfl
  | cons z zs ih =>
    intro x y
    rw [List.cons_append, List.getLast?_cons_cons]
    exact ih z y

theorem create_spider_chart_of_ne_nil (data : List SpiderRow) (pos : String)
    (h : data.filter (fun r => r.position == pos) ≠ []) :
    create_spider_chart data pos
      = SpiderChart.chart
          ((data.filter (fun r => r.position == pos)).map (fun r => r.proficiency)
            ++ ((data.filter (fun r => r.position == pos)).map
                  (fun r => r.proficiency)).take 1)
          ((data.filter (fun r => r.position == pos)).map (fun r => r.competency)
            ++ ((data.filter (fun r => r.position == pos)).map
                  (fun r => r.competency)).take 1) := by
  rw [create_spider_chart]
  have h1 : ((data.filter (fun r => r.position == pos)).map
      (fun r => r.competency)).isEmpty = false := by
    simp only [List.isEmpty_eq_false_iff_exists_mem]
    obtain ⟨a, t, hat⟩ := List.exists_cons_of_ne_nil h
    exact ⟨a.competency, by rw [hat]; exact List.mem_cons_self _ _⟩
  have h2 : ((data.filter (fun r => r.position == pos)).map
      (fun r => r.proficiency)).isEmpty = false := by
    simp only [List.isEmpty_eq_false_iff_exists_mem]
    obtain ⟨a, t, hat⟩ := List.exists_cons_of_ne_nil h
    exact ⟨a.proficiency, by rw [hat]; exact List.mem_cons_self _ _⟩
  simp [h1, h2]

/-! ## Claims -/

/-- C1 (counterexample): with framework "F" holding competencies in input
order ["B", "A"], the taxonomy-tree builder's groups come out in sorted
order ["A", "B"] (pandas `groupby` sorts keys), not in first-seen order
["B", "A"], refuting the claimed group ordering. -/
theorem taxonomy_group_order_counterexample :
    taxonomyHeaders (update_framework
        [⟨"F", "B", "t", "s1"⟩, ⟨"F", "A", "t", "s2"⟩] [] "F") = ["A", "B"]
    ∧ distinctFirstSeen
        ((([⟨"F", "B", "t", "s1"⟩, ⟨"F", "A", "t", "s2"⟩] : List FrameworkRow).filter
          (fun r => r.framework == "F")).map (fun r => r.competency)) = ["B", "A"]
    ∧ (["A", "B"] : List String) ≠ ["B", "A"] := by
  decide

/-- C1 (amended): for every framework selection, the taxonomy-tree builder
emits exactly one group per distinct competency value among the matching
rows, and the groups appear in ascending code-point order of the
competency values (pandas `groupby` sorts its keys), not first-seen
order. -/
theorem taxonomy_group_count_and_sorted_order
    (framework_data : List FrameworkRow) (defs : List DefinitionRow)
    (selected : String) :
    taxonomyHeaders (update_framework framework_data defs selected)
      = sortStrings (distinctFirstSeen
          ((framework_data.filter (fun r => r.framework == selected)).map
            (fun r => r.competency)))
    ∧ (taxonomyHeaders (update_framework framework_data defs selected)).length
      = (distinctFirstSeen
          ((framework_data.filter (fun r => r.framework == selected)).map
            (fun r => r.competency))).length := by
  constructor
  · rw [update_framework, taxonomyHeaders_create]
  · rw [update_framework, taxonomyHeaders_create, length_sortStrings]

/-- C2 (counterexample): `create_organization_chart` mutates the table
passed to it — after the call on a one-row table with a missing manager
cell, the table differs from its input (the manager cell is now `""` and
a `label` column has been written). -/
theorem org_chart_mutation_counterexample :
    (create_organization_chart [⟨"A", "CEO", none, none⟩]).2
      ≠ [⟨"A", "CEO", none, none⟩]
    ∧ (create_organization_chart [⟨"A", "CEO", none, none⟩]).2
      = [⟨"A", "CEO", some "", some "A (CEO)"⟩] := by
  decide

/-- C2 (amended): the taxonomy, rating-scale, spider-chart and
competency-list builders are pure functions of their inputs, but the
organization-chart builder writes into the table passed to it: after the
call the organization table is exactly the input with every missing
manager cell replaced by `""` and a `label` column `name ++ " (" ++ title
++ ")"` added. -/
theorem org_chart_post_state (data : List OrgRow) :
    (create_organization_chart data).2
      = data.map (fun r =>
          { name := r.name, title := r.title,
            manager := some (r.manager.getD ""),
            label := some (r.name ++ " (" ++ r.title ++ ")") }) := by
  simp only [create_organization_chart, List.map_map]
  rfl

/-- C3: for every position selection with at least one matching row, if
the table holds one row per (position, competency) pair then the
spider-chart builder returns a chart whose category and value arrays both
have length (distinct competencies for that position) + 1, and whose
first and last category entries are equal. -/
theorem spider_chart_closed_polygon (data : List SpiderRow) (pos : String)
    (hpairs : (data.map (fun r => (r.position, r.competency))).Nodup)
    (hne : data.filter (fun r => r.position == pos) ≠ []) :
    ∃ rs theta, create_spider_chart data pos = SpiderChart.chart rs theta
      ∧ theta.length
          = (distinctFirstSeen ((data.filter (fun r => r.position == pos)).map
              (fun r => r.competency))).length + 1
      ∧ rs.length
          = (distinctFirstSeen ((data.filter (fun r => r.position == pos)).map
              (fun r => r.competency))).length + 1
      ∧ theta.head? = theta.getLast? := by
  have hdfs : distinctFirstSeen
      ((data.filter (fun r => r.position == pos)).map (fun r => r.competency))
      = (data.filter (fun r => r.position == pos)).map (fun r => r.competency) :=
    distinctFirstSeen_of_nodup _ (filtered_competencies_nodup data pos hpairs)
  obtain ⟨a, t, hat⟩ := List.exists_cons_of_ne_nil hne
  refine ⟨_, _, create_spider_chart_of_ne_nil data pos hne, ?_, ?_, ?_⟩
  · rw [hdfs, hat]
    simp
  · rw [hdfs, hat]
    simp
  · rw [hat]
    simp only [List.map_cons, List.cons_append, List.head?_cons]
    rw [show List.take 1 (a.competency :: List.map (fun r => r.competency) t)
        = [a.competency] from by simp]
    exact (getLast?_cons_append_last _ _ _).symm

/-- C3 (witness): the theorem at the concrete two-row table for position
"P". -/
theorem spider_chart_closed_polygon_witness :
    ∃ rs theta,
      create_spider_chart [⟨"P", "C1", 3⟩, ⟨"P", "C2", 4⟩] "P"
        = SpiderChart.chart rs theta
      ∧ theta.length
          = (distinctFirstSeen
              ((([⟨"P", "C1", 3⟩, ⟨"P", "C2", 4⟩] : List SpiderRow).filter
                (fun r => r.position == "P")).map (fun r => r.competency))).length + 1
      ∧ rs.length
          = (distinctFirstSeen
              ((([⟨"P", "C1", 3⟩, ⟨"P", "C2", 4⟩] : List SpiderRow).filter
                (fun r => r.position == "P")).map (fun r => r.competency))).length + 1
      ∧ theta.head? = theta.getLast? :=
  spider_chart_closed_polygon [⟨"P", "C1", 3⟩, ⟨"P", "C2", 4⟩] "P"
    (by decide) (by decide)

/-- C4: for every organization table, the builder produces exactly one
label per input row, and every produced parent label is either the empty
string or equal to some produced label. -/
theorem org_chart_labels_parents (data : List OrgRow) :
    (create_organization_chart data).1.labels.length = data.length
    ∧ ∀ p ∈ (create_organization_chart data).1.parents,
        p = "" ∨ p ∈ (create_organization_chart data).1.labels := by
  constructor
  · simp [create_organization_chart]
  · intro p hp
    simp only [create_organization_chart] at hp ⊢
    obtain ⟨r, hr, hpr⟩ := List.mem_map.mp hp
    rw [orgParent] at hpr
    cases hfind : ((data.map orgFillManager).map orgAddLabel).find?
        (fun q => q.name == r.manager.getD "") with
    | none =>
      rw [hfind] at hpr
      exact Or.inl hpr.symm
    | some q =>
      rw [hfind] at hpr
      refine Or.inr ?_
      rw [← hpr]
      exact List.mem_map.mpr ⟨q, List.mem_of_find?_eq_some hfind, rfl⟩

/-- C4 (witness): the theorem at a concrete two-row table; the second
row's parent label "A (CEO)" is one of the produced labels. -/
theorem org_chart_labels_parents_witness :
    (create_organization_chart
      [⟨"A", "CEO", some "", none⟩,
       ⟨"B", "Sales Director", some "A", none⟩]).1.labels.length = 2
    ∧ ("A (CEO)" = ""
        ∨ "A (CEO)" ∈ (create_organization_chart
            [⟨"A", "CEO", some "", none⟩,
             ⟨"B", "Sales Director", some "A", none⟩]).1.labels) :=
  ⟨(org_chart_labels_parents
      [⟨"A", "CEO", some "", none⟩,
       ⟨"B", "Sales Director", some "A", none⟩]).1.trans (by decide),
   (org_chart_labels_parents
      [⟨"A", "CEO", some "", none⟩,
       ⟨"B", "Sales Director", some "A", none⟩]).2 "A (CEO)" (by decide)⟩

/-- C5 (counterexample): a row whose manager cell is empty does not always
get an empty parent label — in a table containing a row whose `name` is
the empty string, the empty manager matches that name, so the parent
label is that row's label `" (T)"`, not `""`. -/
theorem org_chart_empty_manager_counterexample :
    (create_organization_chart [⟨"", "T", some "", none⟩]).1.parents = [" (T)"]
    ∧ (" (T)" : String) ≠ "" := by
  decide

/-- C5 (amended): for every organization-table row whose manager cell
(missing treated as the empty string) does not equal the `name` of any
row in the table, the builder assigns that row the empty string as its
parent label, silently and without error.  (An empty manager yields an
empty parent exactly when no row's name is itself the empty string.) -/
theorem org_chart_unmatched_manager_parent (data : List OrgRow) (i : Nat)
    (hi : i < data.length)
    (h : ∀ r ∈ data, r.name ≠ (data.get ⟨i, hi⟩).manager.getD "") :
    (create_organization_chart data).1.parents[i]? = some "" := by
  simp only [create_organization_chart]
  rw [List.getElem?_map, List.getElem?_map, List.getElem?_map,
    List.getElem?_eq_getElem hi]
  simp only [Option.map_some']
  congr 1
  rw [orgParent]
  have hfind : ((data.map orgFillManager).map orgAddLabel).find?
      (fun q => q.name ==
        (orgAddLabel (orgFillManager (data.get ⟨i, hi⟩))).manager.getD "") = none := by
    refine List.find?_eq_none.mpr (fun q hq => ?_)
    obtain ⟨q1, hq1, rfl⟩ := List.mem_map.mp hq
    obtain ⟨q0, hq0, rfl⟩ := List.mem_map.mp hq1
    have hname : (orgAddLabel (orgFillManager q0)).name = q0.name := rfl
    have hmgr : (orgAddLabel (orgFillManager (data.get ⟨i, hi⟩))).manager.getD ""
        = (data.get ⟨i, hi⟩).manager.getD "" := rfl
    rw [hname, hmgr]
    simpa using h q0 hq0
  simp only [List.get_eq_getElem] at hfind ⊢
  rw [hfind]

/-- C5 (witness): the amended theorem at a one-row table whose only row
has a missing manager cell: its parent label is `""`. -/
theorem org_chart_unmatched_manager_parent_witness :
    (create_organization_chart [⟨"A", "CEO", none, none⟩]).1.parents[0]?
      = some "" :=
  org_chart_unmatched_manager_parent [⟨"A", "CEO", none, none⟩] 0
    (by decide) (by decide)

/-- C6: the two-row example table yields labels
["A (CEO)", "B (Sales Manager)"], parents ["", "A (CEO)"], and colors
["blue", "green"] — "B" colored by the "Manager" category and "A" by the
other — where the category is decided by the case-sensitive substring
test `pyContains "Manager" title`. -/
theorem org_chart_example_end_to_end :
    (create_organization_chart
      [⟨"A", "CEO", some "", none⟩, ⟨"B", "Sales Manager", some "A", none⟩]).1
      = { labels := ["A (CEO)", "B (Sales Manager)"],
          parents := ["", "A (CEO)"],
          colors := ["blue", "green"] }
    ∧ pyContains "Manager" "Sales Manager" = true
    ∧ pyContains "Manager" "CEO" = false := by
  decide

/-- C7: for every position selection whose filter yields zero rows, the
spider-chart builder returns the empty chart descriptor, not an error. -/
theorem spider_chart_empty_on_no_rows (data : List SpiderRow) (pos : String)
    (h : data.filter (fun r => r.position == pos) = []) :
    create_spider_chart data pos = SpiderChart.empty := by
  rw [create_spider_chart, h]
  rfl

/-- C7 (witness): the theorem at a one-row table and a position matching
no row. -/
theorem spider_chart_empty_on_no_rows_witness :
    create_spider_chart [⟨"P", "C", 3⟩] "Q" = SpiderChart.empty :=
  spider_chart_empty_on_no_rows [⟨"P", "C", 3⟩] "Q" (by decide)

/-- C8: for every clicked form submission, a successful notification call
yields the success message, any exception raised inside the handler's
`try` block yields the generic failure message, and the handler always
returns one of the two message texts (no exception escapes). -/
theorem submit_form_messages (k : Nat) (hk : k ≠ 0)
    (res : Except String Unit) :
    (res = Except.ok () → submit_form (some k) res = submitSuccessMessage)
    ∧ (∀ e, res = Except.error e →
        submit_form (some k) res = submitFailureMessage)
    ∧ (submit_form (some k) res = submitSuccessMessage
        ∨ submit_form (some k) res = submitFailureMessage) := by
  cases res with
  | ok u =>
    cases u
    simp [submit_form, hk]
  | error e =>
    simp [submit_form, hk]

/-- C8 (witness): one click and a successful send yield the success
message. -/
theorem submit_form_messages_witness :
    submit_form (some 1) (Except.ok ()) = submitSuccessMessage :=
  (submit_form_messages 1 (by decide) (Except.ok ())).1 rfl

/-- C9: for every competency appearing among the rows handed to the
taxonomy-tree builder, the output contains the definition line obtained
by exact competency-name lookup in the definitions table, and when no
definition row matches, the looked-up text is the fixed placeholder
"No definition available." rather than an error. -/
theorem taxonomy_definition_lookup (defs : List DefinitionRow)
    (df : List FrameworkRow) (c : String)
    (hc : c ∈ df.map (fun r => r.competency)) :
    TreeNode.defLine ("Definition: " ++ lookupDefinition defs c)
      ∈ create_taxonomy_tree defs df
    ∧ ((∀ d ∈ defs, d.competency ≠ c) →
        lookupDefinition defs c = "No definition available.") := by
  constructor
  · have hkey : c ∈ sortStrings (distinctFirstSeen
        (df.map (fun r => r.competency))) := by
      rw [mem_sortStrings, mem_distinctFirstSeen]
      exact hc
    rw [create_taxonomy_tree]
    refine List.mem_flatMap.mpr
      ⟨(c, df.filter (fun r => r.competency == c)), ?_, ?_⟩
    · rw [pandasGroupby]
      exact List.mem_map.mpr ⟨c, hkey, rfl⟩
    · simp [taxonomyBlock]
  · intro h
    rw [lookupDefinition]
    have hfind : defs.find? (fun d => d.competency == c) = none := by
      refine List.find?_eq_none.mpr (fun d hd => ?_)
      simpa using h d hd
    rw [hfind]

/-- C9 (witness): the theorem at a one-row framework table and an empty
definitions table; the emitted definition line carries the placeholder. -/
theorem taxonomy_definition_lookup_witness :
    TreeNode.defLine ("Definition: " ++ lookupDefinition [] "C")
      ∈ create_taxonomy_tree [] [⟨"F", "C", "t", "s"⟩]
    ∧ lookupDefinition [] "C" = "No definition available." :=
  ⟨(taxonomy_definition_lookup [] [⟨"F", "C", "t", "s"⟩] "C" (by decide)).1,
   (taxonomy_definition_lookup [] [⟨"F", "C", "t", "s"⟩] "C" (by decide)).2
     (by simp)⟩

/-- C10: both the taxonomy-tree builder and the competency-list builder
color a row by the same rule: "red" (the technical category) exactly when
the row's type field, lowercased, equals "technical ability" — a
case-insensitive exact match, not a substring match — and "green"
otherwise. -/
theorem type_color_classification (t : String) :
    taxonomyItemColor t = competencyItemColor t
    ∧ (taxonomyItemColor t = "red" ↔ pyLower t = "technical ability")
    ∧ (taxonomyItemColor t = "red" ∨ taxonomyItemColor t = "green") := by
  refine ⟨rfl, ?_, ?_⟩
  · by_cases h : pyLower t = "technical ability"
    · simp [taxonomyItemColor, h]
    · simp [taxonomyItemColor, h]
  · by_cases h : pyLower t = "technical ability"
    · exact Or.inl (by simp [taxonomyItemColor, h])
    · exact Or.inr (by simp [taxonomyItemColor, h])

/-- C10 (witness): the classification at the concrete type value
"Technical ability" agrees across the two builders and is the technical
("red") category. -/
theorem type_color_classification_witness :
    taxonomyItemColor "Technical ability" = competencyItemColor "Technical ability"
    ∧ (taxonomyItemColor "Technical ability" = "red"
        ↔ pyLower "Technical ability" = "technical ability") :=
  ⟨(type_color_classification "Technical ability").1,
   (type_color_classification "Technical ability").2.1⟩
